import Mathlib

/-!
Shallow embedding of `src/asset-transfer-basic/chaincode-go/chaincode/smartcontract.go`
(package `chaincode`), a Hyperledger-Fabric style keyed-record contract.

The world state is modelled as an association list from string keys to stored
JSON values; `GetState`/`PutState`/`DelState` are the store primitives the
contract calls through the transaction stub.  Go's `encoding/json` behaviour
on the `Asset` struct is modelled faithfully: a struct field takes part in
marshalling/unmarshalling only when its Go identifier is exported (first
letter upper-case); all five fields of `Asset` are declared lower-case in the
source, so none is exported.
-/

namespace BasicTransfer

/-- JSON values, as produced and consumed by Go's `encoding/json`. -/
inductive Json where
  | str (s : String)
  | num (n : Int)
  | obj (fields : List (String × Json))

/-- The `Asset` struct of smartcontract.go lines 18-24, fields in Go
declaration order: `webfilterlist`, `blocklist`, `allowlist`, `attribute1`,
`attribute2`. -/
structure Asset where
  webfilterlist : Int
  blocklist     : String
  allowlist     : String
  attribute1    : String
  attribute2    : Int
deriving DecidableEq

/-- The zero value of the Go `Asset` struct: every string field is `""`,
every int field is `0`.  `json.Unmarshal` starts from this value. -/
def zeroAsset : Asset :=
  { webfilterlist := 0, blocklist := "", allowlist := "", attribute1 := "", attribute2 := 0 }

/-- Go's visibility rule: an identifier is exported iff its first letter is
upper-case.  `encoding/json` marshals and unmarshals only exported fields. -/
def goExported (name : String) : Bool :=
  name.front.isUpper

/-- Go `json.Marshal` applied to an `Asset`: emit, in struct declaration
order, each exported field under its JSON tag.  All five fields of `Asset`
are declared with lower-case identifiers in the source, so each
`goExported` test is on the corresponding Go identifier. -/
def jsonMarshalAsset (a : Asset) : Json :=
  Json.obj
    ((if goExported "webfilterlist" then [("webfilterlist", Json.num a.webfilterlist)] else [])
  ++ (if goExported "blocklist" then [("blocklist", Json.str a.blocklist)] else [])
  ++ (if goExported "allowlist" then [("allowlist", Json.str a.allowlist)] else [])
  ++ (if goExported "attribute1" then [("attribute1", Json.str a.attribute1)] else [])
  ++ (if goExported "attribute2" then [("attribute2", Json.num a.attribute2)] else []))

/-- Coerce a JSON value to a Go `int` the way a successful unmarshal of a
number would. -/
def jsonAsInt : Json → Int
  | Json.num n => n
  | _ => 0

/-- Coerce a JSON value to a Go `string` the way a successful unmarshal of a
string would. -/
def jsonAsStr : Json → String
  | Json.str s => s
  | _ => ""

/-- One key/value pair of a JSON object applied to an `Asset` during Go
`json.Unmarshal`: the pair is matched against the struct's JSON tags, and the
matched field is assigned only when its Go identifier is exported; an
unexported field is silently left at its current value (Go never errors on
this, it skips the field). -/
def unmarshalAssetField (a : Asset) (key : String) (v : Json) : Asset :=
  if key = "webfilterlist" then
    if goExported "webfilterlist" then { a with webfilterlist := jsonAsInt v } else a
  else if key = "blocklist" then
    if goExported "blocklist" then { a with blocklist := jsonAsStr v } else a
  else if key = "allowlist" then
    if goExported "allowlist" then { a with allowlist := jsonAsStr v } else a
  else if key = "attribute1" then
    if goExported "attribute1" then { a with attribute1 := jsonAsStr v } else a
  else if key = "attribute2" then
    if goExported "attribute2" then { a with attribute2 := jsonAsInt v } else a
  else a

/-- Go `json.Unmarshal` of raw bytes into a fresh `var asset Asset`:
a JSON object is folded field by field over the zero value; a non-object
document fails with a type error. -/
def jsonUnmarshalAsset (j : Json) : Except String Asset :=
  match j with
  | Json.obj kvs =>
      Except.ok (kvs.foldl (fun a kv => unmarshalAssetField a kv.1 kv.2) zeroAsset)
  | _ => Except.error "json: cannot unmarshal into Go value of type chaincode.Asset"

/-- The world state: an association list from keys to stored JSON documents.
Keys are unique (PutState overwrites in place). -/
abbrev Store := List (String × Json)

/-- Stub `GetState`: the stored bytes for a key, `none` when absent
(Fabric returns nil bytes for an absent key). -/
def getState : Store → String → Option Json
  | [], _ => none
  | p :: t, k => if p.1 = k then some p.2 else getState t k

/-- Stub `PutState`: overwrite the value when the key is present, append the
pair otherwise. -/
def putState : Store → String → Json → Store
  | [], k, v => [(k, v)]
  | p :: t, k, v => if p.1 = k then (k, v) :: t else p :: putState t k v

/-- Stub `DelState`: remove the pairs stored under the key. -/
def delState : Store → String → Store
  | [], _ => []
  | p :: t, k => if p.1 = k then delState t k else p :: delState t k

/-- Error message of `ReadAsset`/`UpdateAsset`/`DeleteAsset` for a missing
key (the contract's NotFoundError). -/
def notFoundErr (k : String) : String :=
  "the asset " ++ k ++ " does not exist"

/-- Error message of `CreateAsset` for a key already present (the contract's
DuplicateKeyError). -/
def duplicateErr (k : String) : String :=
  "the asset " ++ k ++ " already exists"

/-- Construct an `Asset` from `CreateAsset`/`UpdateAsset` parameters,
parameter order as in the Go signature. -/
def mkAsset (allowlist blocklist : String) (attribute2 : Int) (attribute1 : String)
    (webfilterlist : Int) : Asset :=
  { allowlist := allowlist, blocklist := blocklist, attribute2 := attribute2,
    attribute1 := attribute1, webfilterlist := webfilterlist }

/-- `AssetExists` (smartcontract.go lines 136-143): true iff `GetState`
returns non-nil bytes.  The store itself is assumed fault-free, so the
Go error branch does not arise. -/
def assetExists (st : Store) (allowlist : String) : Bool :=
  (getState st allowlist).isSome

/-- `CreateAsset` (lines 53-75): fail when the key exists, otherwise marshal
the new asset and put it under its `allowlist` value.  The returned pair is
(result, post store); an error issues no write, so the input store is
returned unchanged. -/
def createAsset (st : Store) (allowlist blocklist : String) (attribute2 : Int)
    (attribute1 : String) (webfilterlist : Int) : Except String Unit × Store :=
  if assetExists st allowlist then
    (Except.error (duplicateErr allowlist), st)
  else
    (Except.ok (),
     putState st allowlist
       (jsonMarshalAsset (mkAsset allowlist blocklist attribute2 attribute1 webfilterlist)))

/-- `ReadAsset` (lines 78-94): fetch the bytes; nil bytes fail NotFound;
otherwise unmarshal.  A read issues no write. -/
def readAsset (st : Store) (allowlist : String) : Except String Asset :=
  match getState st allowlist with
  | none => Except.error (notFoundErr allowlist)
  | some j => jsonUnmarshalAsset j

/-- `UpdateAsset` (lines 97-120): fail NotFound when the key is absent,
otherwise marshal a fully rebuilt asset and overwrite. -/
def updateAsset (st : Store) (allowlist blocklist : String) (attribute2 : Int)
    (attribute1 : String) (webfilterlist : Int) : Except String Unit × Store :=
  if assetExists st allowlist then
    (Except.ok (),
     putState st allowlist
       (jsonMarshalAsset (mkAsset allowlist blocklist attribute2 attribute1 webfilterlist)))
  else
    (Except.error (notFoundErr allowlist), st)

/-- `DeleteAsset` (lines 123-133): fail NotFound when the key is absent,
otherwise delete the key. -/
def deleteAsset (st : Store) (allowlist : String) : Except String Unit × Store :=
  if assetExists st allowlist then
    (Except.ok (), delState st allowlist)
  else
    (Except.error (notFoundErr allowlist), st)

/-- `TransferAsset` (lines 146-166): read (propagating NotFound/decode
errors), capture the current `attribute1`, overwrite it with the new value,
re-marshal and write back; return the captured prior value. -/
def transferAsset (st : Store) (allowlist newattribute1 : String) :
    Except String String × Store :=
  match readAsset st allowlist with
  | Except.error e => (Except.error e, st)
  | Except.ok asset =>
      let oldattribute1 := asset.attribute1
      let asset2 := { asset with attribute1 := newattribute1 }
      (Except.ok oldattribute1, putState st allowlist (jsonMarshalAsset asset2))

/-- The six constant seed assets of `InitLedger` (lines 28-35), in source
order. -/
def initAssets : List Asset :=
  [ mkAsset "www.google.com" "" 5 "" 300,
    mkAsset "" "www.xxx.com" 5 "" 400,
    mkAsset "www.bbc.co.uk" "" 10 "" 500,
    mkAsset "https://scholar.google.com/" "" 10 "" 600,
    mkAsset "" "www.instagram.com" 15 "" 700,
    mkAsset "www.napier.ac.uk" "" 15 "" 800 ]

/-- `InitLedger` (lines 27-50): marshal each seed asset and put it under its
`allowlist` value, unconditionally, in order. -/
def initLedger (st : Store) : Store :=
  initAssets.foldl (fun s a => putState s a.allowlist (jsonMarshalAsset a)) st

/-- `GetAllAssets` (lines 169-194): open-ended range scan over the whole
store, unmarshalling every stored value in iteration order; the first
decode failure aborts the whole scan. -/
def getAllAssets (st : Store) : Except String (List Asset) :=
  st.mapM (fun p => jsonUnmarshalAsset p.2)

/-- Whether an `Except` result is a success. -/
def exceptOk {α : Type} : Except String α → Bool
  | Except.ok _ => true
  | Except.error _ => false

/-- Keys of a store, in store order. -/
def storeKeys (st : Store) : List String :=
  st.map Prod.fst

/-- Store states reachable from the empty store by the contract's
operations.  Error results leave the store unchanged, so the result store of
any call is included unconditionally. -/
inductive Reachable : Store → Prop where
  | empty : Reachable []
  | init {st : Store} : Reachable st → Reachable (initLedger st)
  | create {st : Store} {al bl a1 : String} {a2 wf : Int} :
      Reachable st → Reachable (createAsset st al bl a2 a1 wf).2
  | update {st : Store} {al bl a1 : String} {a2 wf : Int} :
      Reachable st → Reachable (updateAsset st al bl a2 a1 wf).2
  | del {st : Store} {al : String} :
      Reachable st → Reachable (deleteAsset st al).2
  | transfer {st : Store} {al nv : String} :
      Reachable st → Reachable (transferAsset st al nv).2

/-- The concrete record of the spec's worked example,
`Create("www.test.com","",5,"",300)`. -/
def testRecord : Asset := mkAsset "www.test.com" "" 5 "" 300

/-! Helper lemmas about the store primitives. -/

theorem getState_delState (st : Store) (k : String) :
    getState (delState st k) k = none := by
  induction st with
  | nil => rfl
  | cons p t ih =>
      by_cases h : p.1 = k
      · simpa [delState, h] using ih
      · simpa [delState, getState, h] using ih

theorem mem_storeKeys_putState {x k : String} {v : Json} {st : Store}
    (h : x ∈ storeKeys (putState st k v)) : x = k ∨ x ∈ storeKeys st := by
  induction st with
  | nil =>
      simp [putState, storeKeys] at h
      exact Or.inl h
  | cons p t ih =>
      by_cases hp : p.1 = k
      · simp [putState, hp, storeKeys] at h
        rcases h with h | h
        · exact Or.inl h
        · exact Or.inr (by simp [storeKeys, h])
      · simp [putState, hp, storeKeys] at h
        rcases h with h | h
        · exact Or.inr (by simp [storeKeys, h])
        · rcases ih (by simpa [storeKeys] using h) with h1 | h1
          · exact Or.inl h1
          · exact Or.inr (by simp [storeKeys]; exact Or.inr (by simpa [storeKeys] using h1))

theorem nodup_storeKeys_putState {k : String} {v : Json} {st : Store}
    (h : (storeKeys st).Nodup) : (storeKeys (putState st k v)).Nodup := by
  induction st with
  | nil => simp [putState, storeKeys]
  | cons p t ih =>
      simp only [storeKeys, List.map_cons, List.nodup_cons] at h
      by_cases hp : p.1 = k
      · simp only [putState, hp, if_true, storeKeys, List.map_cons, List.nodup_cons]
        exact ⟨by rw [← hp]; exact h.1, h.2⟩
      · simp only [putState, hp, if_false, storeKeys, List.map_cons, List.nodup_cons]
        refine ⟨fun hmem => ?_, ih h.2⟩
        rcases mem_storeKeys_putState hmem with h1 | h1
        · exact hp h1
        · exact h.1 h1

theorem mem_storeKeys_delState {x k : String} {st : Store}
    (h : x ∈ storeKeys (delState st k)) : x ∈ storeKeys st := by
  induction st with
  | nil => simpa [delState] using h
  | cons p t ih =>
      by_cases hp : p.1 = k
      · simp only [delState, hp, if_true] at h
        exact List.mem_cons_of_mem _ (ih h)
      · simp only [delState, hp, if_false] at h
        rcases List.mem_cons.mp h with h1 | h1
        · exact List.mem_cons.mpr (Or.inl h1)
        · exact List.mem_cons_of_mem _ (ih h1)

theorem nodup_storeKeys_delState {k : String} {st : Store}
    (h : (storeKeys st).Nodup) : (storeKeys (delState st k)).Nodup := by
  induction st with
  | nil => simp [delState, storeKeys]
  | cons p t ih =>
      simp only [storeKeys, List.map_cons, List.nodup_cons] at h
      by_cases hp : p.1 = k
      · simp only [delState, hp, if_true]
        exact ih h.2
      · simp only [delState, hp, if_false, storeKeys, List.map_cons, List.nodup_cons]
        exact ⟨fun hmem => h.1 (mem_storeKeys_delState hmem), ih h.2⟩

theorem nodup_storeKeys_seedFold (l : List Asset) (st : Store)
    (h : (storeKeys st).Nodup) :
    (storeKeys (l.foldl (fun s a => putState s a.allowlist (jsonMarshalAsset a)) st)).Nodup := by
  induction l generalizing st with
  | nil => simpa using h
  | cons a t ih =>
      simp only [List.foldl_cons]
      exact ih _ (nodup_storeKeys_putState h)

theorem nodup_storeKeys_initLedger {st : Store} (h : (storeKeys st).Nodup) :
    (storeKeys (initLedger st)).Nodup :=
  nodup_storeKeys_seedFold initAssets st h

theorem nodup_storeKeys_createAsset {st : Store} {al bl a1 : String} {a2 wf : Int}
    (h : (storeKeys st).Nodup) :
    (storeKeys (createAsset st al bl a2 a1 wf).2).Nodup := by
  by_cases hc : assetExists st al
  · simpa [createAsset, hc] using h
  · simpa [createAsset, hc] using nodup_storeKeys_putState h

theorem nodup_storeKeys_updateAsset {st : Store} {al bl a1 : String} {a2 wf : Int}
    (h : (storeKeys st).Nodup) :
    (storeKeys (updateAsset st al bl a2 a1 wf).2).Nodup := by
  by_cases hc : assetExists st al
  · simpa [updateAsset, hc] using nodup_storeKeys_putState h
  · simpa [updateAsset, hc] using h

theorem nodup_storeKeys_deleteAsset {st : Store} {al : String}
    (h : (storeKeys st).Nodup) :
    (storeKeys (deleteAsset st al).2).Nodup := by
  by_cases hc : assetExists st al
  · simpa [deleteAsset, hc] using nodup_storeKeys_delState h
  · simpa [deleteAsset, hc] using h

theorem nodup_storeKeys_transferAsset {st : Store} {al nv : String}
    (h : (storeKeys st).Nodup) :
    (storeKeys (transferAsset st al nv).2).Nodup := by
  cases hr : readAsset st al with
  | error e => simpa [transferAsset, hr] using h
  | ok a => simpa [transferAsset, hr] using nodup_storeKeys_putState h

/-! Claim theorems. -/

/-- C1: the claimed round trip `decode(encode(r)) == r` fails on the code.
Every `Asset` field is an unexported Go identifier, so `json.Marshal`
serializes none of them and `json.Unmarshal` can set none of them: decoding
the encoding of the example record yields the zero record, which differs
from the original. -/
theorem C1_roundtrip_fails :
    jsonUnmarshalAsset (jsonMarshalAsset testRecord) = Except.ok zeroAsset ∧
    zeroAsset ≠ testRecord :=
  ⟨rfl, by decide⟩

/-- C2: after `Create("www.test.com","",5,"",300)`, the call
`Transfer("www.test.com","flag")` does return `""`, but the new value is not
persisted: the immediate `Read` returns the zero record, whose `attribute1`
is `""` and not `"flag"` (marshalling drops the unexported field). -/
theorem C2_transfer_not_persisted :
    (transferAsset (createAsset [] "www.test.com" "" 5 "" 300).2
        "www.test.com" "flag").1 = Except.ok "" ∧
    readAsset (transferAsset (createAsset [] "www.test.com" "" 5 "" 300).2
        "www.test.com" "flag").2 "www.test.com" = Except.ok zeroAsset ∧
    zeroAsset.attribute1 ≠ "flag" :=
  ⟨rfl, rfl, by decide⟩

/-- C3: `Create("www.test.com","",5,"",300)` followed by
`Read("www.test.com")` does not return the created record: the stored bytes
are the empty JSON object, so the read decodes to the zero record instead of
`{allowlist:"www.test.com", blocklist:"", attribute2:5, attribute1:"",
webfilterlist:300}`. -/
theorem C3_create_read_zero :
    readAsset (createAsset [] "www.test.com" "" 5 "" 300).2 "www.test.com"
      = Except.ok zeroAsset ∧
    zeroAsset ≠ testRecord :=
  ⟨rfl, by decide⟩

/-- C4: starting from the empty store, `InitLedger` followed by
`GetAllAssets` returns five copies of the zero record, not the six seeded
records: the two seed assets with empty `allowlist` are both stored under
the key `""` (the second overwriting the first), and every stored value is
the empty JSON object. -/
theorem C4_initLedger_not_six_records :
    getAllAssets (initLedger []) = Except.ok (List.replicate 5 zeroAsset) ∧
    (List.replicate 5 zeroAsset).length ≠ initAssets.length :=
  ⟨rfl, by decide⟩

/-- C5: for a key absent from the store, `AssetExists` is false and
`ReadAsset`, `UpdateAsset` and `DeleteAsset` each fail with the NotFound
error, returning the store unchanged (no write is issued on those paths). -/
theorem C5_absent_key_behaviour (st : Store) (k bl a1 : String) (a2 wf : Int)
    (h : getState st k = none) :
    assetExists st k = false ∧
    readAsset st k = Except.error (notFoundErr k) ∧
    updateAsset st k bl a2 a1 wf = (Except.error (notFoundErr k), st) ∧
    deleteAsset st k = (Except.error (notFoundErr k), st) := by
  have hex : assetExists st k = false := by simp [assetExists, h]
  refine ⟨hex, ?_, ?_, ?_⟩
  · simp [readAsset, h]
  · simp [updateAsset, hex]
  · simp [deleteAsset, hex]

/-- C5 witness: the behaviour at the concrete absent key `"k"` of the empty
store. -/
theorem C5_absent_key_behaviour_witness :
    getState [] "k" = none ∧
    (assetExists [] "k" = false ∧
     readAsset [] "k" = Except.error (notFoundErr "k") ∧
     updateAsset [] "k" "b" 1 "c" 2 = (Except.error (notFoundErr "k"), []) ∧
     deleteAsset [] "k" = (Except.error (notFoundErr "k"), [])) :=
  ⟨rfl, C5_absent_key_behaviour [] "k" "b" "c" 1 2 rfl⟩

/-- C6: for a key already present in the store, `CreateAsset` fails with the
DuplicateKey error and returns the store unchanged (no write is issued); in
particular its result is never a success on a present key, so a successful
create can only follow a false existence check. -/
theorem C6_duplicate_create (st : Store) (k bl a1 : String) (a2 wf : Int)
    (h : assetExists st k = true) :
    createAsset st k bl a2 a1 wf = (Except.error (duplicateErr k), st) ∧
    (createAsset st k bl a2 a1 wf).1 ≠ Except.ok () := by
  have h1 : createAsset st k bl a2 a1 wf = (Except.error (duplicateErr k), st) := by
    simp [createAsset, h]
  refine ⟨h1, ?_⟩
  rw [h1]
  simp

/-- C6 witness: creating the concrete key `"k"` on a store already holding
it. -/
theorem C6_duplicate_create_witness :
    assetExists [("k", Json.obj [])] "k" = true ∧
    (createAsset [("k", Json.obj [])] "k" "b" 1 "c" 2
        = (Except.error (duplicateErr "k"), [("k", Json.obj [])]) ∧
     (createAsset [("k", Json.obj [])] "k" "b" 1 "c" 2).1 ≠ Except.ok ()) :=
  ⟨rfl, C6_duplicate_create [("k", Json.obj [])] "k" "b" "c" 1 2 rfl⟩

/-- C7: deleting a present key succeeds, and afterwards the key is absent:
a subsequent `ReadAsset` fails NotFound and a second `DeleteAsset` also
fails NotFound, leaving the once-deleted store unchanged. -/
theorem C7_delete_then_absent (st : Store) (k : String)
    (h : assetExists st k = true) :
    (deleteAsset st k).1 = Except.ok () ∧
    readAsset (deleteAsset st k).2 k = Except.error (notFoundErr k) ∧
    deleteAsset (deleteAsset st k).2 k
      = (Except.error (notFoundErr k), (deleteAsset st k).2) := by
  have h2 : (deleteAsset st k).2 = delState st k := by simp [deleteAsset, h]
  have hg : getState (delState st k) k = none := getState_delState st k
  have hex2 : assetExists (delState st k) k = false := by simp [assetExists, hg]
  refine ⟨by simp [deleteAsset, h], ?_, ?_⟩
  · rw [h2]
    simp [readAsset, hg]
  · rw [h2]
    simp [deleteAsset, hex2]

/-- C7 witness: delete, read and delete again on the concrete store holding
only the key `"k"`. -/
theorem C7_delete_then_absent_witness :
    assetExists [("k", Json.obj [])] "k" = true ∧
    ((deleteAsset [("k", Json.obj [])] "k").1 = Except.ok () ∧
     readAsset (deleteAsset [("k", Json.obj [])] "k").2 "k"
       = Except.error (notFoundErr "k") ∧
     deleteAsset (deleteAsset [("k", Json.obj [])] "k").2 "k"
       = (Except.error (notFoundErr "k"), (deleteAsset [("k", Json.obj [])] "k").2)) :=
  ⟨rfl, C7_delete_then_absent [("k", Json.obj [])] "k" rfl⟩

/-- C8: the encoded form of every record is the empty JSON object: no field
at all is emitted (all five Go struct fields are unexported), so the
encoding does not contain the five fields in the claimed canonical order
allowlist, blocklist, attribute2, attribute1, webfilterlist — nor in the
struct's declared order. -/
theorem C8_encoding_contains_no_fields (a : Asset) :
    jsonMarshalAsset a = Json.obj [] :=
  rfl

/-- C9 counterexample: the state `initLedger []` is reachable from the empty
store, yet it stores a record under the empty-string key, refuting the
claimed non-empty-key invariant. -/
theorem C9_empty_key_reachable :
    Reachable (initLedger []) ∧ assetExists (initLedger []) "" = true :=
  ⟨Reachable.init Reachable.empty, rfl⟩

/-- C9 amended: in every store state reachable from the empty store via the
contract's operations, the record keys are unique (no key occurs twice);
keys may however be empty, as `InitLedger` stores seed records under the
empty-string key. -/
theorem C9_reachable_keys_unique (st : Store) (h : Reachable st) :
    (storeKeys st).Nodup := by
  induction h with
  | empty => simp [storeKeys]
  | init _ ih => exact nodup_storeKeys_initLedger ih
  | create _ ih => exact nodup_storeKeys_createAsset ih
  | update _ ih => exact nodup_storeKeys_updateAsset ih
  | del _ ih => exact nodup_storeKeys_deleteAsset ih
  | transfer _ ih => exact nodup_storeKeys_transferAsset ih

/-- C9 witness: key uniqueness at the concrete reachable state
`initLedger []`. -/
theorem C9_reachable_keys_unique_witness :
    Reachable (initLedger []) ∧ (storeKeys (initLedger [])).Nodup :=
  ⟨Reachable.init Reachable.empty,
   C9_reachable_keys_unique (initLedger []) (Reachable.init Reachable.empty)⟩

/-- C10: each mutating operation either succeeds or returns the store it was
given: every error result of `CreateAsset`, `UpdateAsset`, `DeleteAsset`
and `TransferAsset` comes from the existence check or the initial read,
before any write or delete is issued, so on error the store is exactly the
pre-call store. -/
theorem C10_error_leaves_store_unchanged (st : Store) (k bl a1 nv : String)
    (a2 wf : Int) :
    (exceptOk (createAsset st k bl a2 a1 wf).1 = true ∨
      (createAsset st k bl a2 a1 wf).2 = st) ∧
    (exceptOk (updateAsset st k bl a2 a1 wf).1 = true ∨
      (updateAsset st k bl a2 a1 wf).2 = st) ∧
    (exceptOk (deleteAsset st k).1 = true ∨ (deleteAsset st k).2 = st) ∧
    (exceptOk (transferAsset st k nv).1 = true ∨
      (transferAsset st k nv).2 = st) := by
  refine ⟨?_, ?_, ?_, ?_⟩
  · by_cases hc : assetExists st k
    · exact Or.inr (by simp [createAsset, hc])
    · exact Or.inl (by simp [createAsset, hc, exceptOk])
  · by_cases hc : assetExists st k
    · exact Or.inl (by simp [updateAsset, hc, exceptOk])
    · exact Or.inr (by simp [updateAsset, hc])
  · by_cases hc : assetExists st k
    · exact Or.inl (by simp [deleteAsset, hc, exceptOk])
    · exact Or.inr (by simp [deleteAsset, hc])
  · cases hr : readAsset st k with
    | error e => exact Or.inr (by simp [transferAsset, hr])
    | ok a => exact Or.inl (by simp [transferAsset, hr, exceptOk])

end BasicTransfer
